import Mathlib

/-!
# Handler matching and the handler registry (`handlers.go`)

A shallow embedding of `handler.match`, `Bot.RegisterHandler`,
`Bot.RegisterHandlerMatchFunc`, `Bot.UnregisterHandler` and the data they
read, followed by theorems about them.

Modelling conventions.
* A Go `string` is its sequence of bytes; `len` is `List.length` and
  `s[lo:hi]` is the bounds-checked `goSlice`.
* A Go `int` is a Lean `Int`.  The only arithmetic in the file is
  `e.Offset+1` and `e.Offset+e.Length`, evaluated only when `e.Offset == 0`,
  so no overflow can occur.
* A run-time panic is an `Except.error`; a normal `return b` is `Except.ok b`.
* `*models.Update` is the pointed-to record (the dispatcher never passes nil);
  `update.Message` and `update.CallbackQuery` are nilable pointers, `Option`s.
* The regular-expression engine is Go's standard library, not part of this
  program: `regexp.Compile` is a parameter `compile`, and a compiled
  expression is known only through its `MatchString`.
-/

set_option linter.dupNamespace false

namespace Bot

/-- A Go string: a sequence of bytes. -/
abbrev GoString := List (Fin 256)

/-- The bytes of an ASCII literal, written as a list of characters. -/
def ascii (cs : List Char) : GoString := cs.map fun c => Fin.ofNat c.toNat

/-- Run-time failures of the Go code. -/
inductive Panic where
  /-- `s[lo:hi]` with bounds out of range. -/
  | sliceOutOfRange
  /-- `regexp.MustCompile` on a source that does not compile. -/
  | regexpCompile
  /-- Method call through a nil `*regexp.Regexp`. -/
  | nilDereference
  deriving DecidableEq, Repr

deriving instance DecidableEq for Except

/-- Go's `s[lo:hi]` on a string: it panics unless `0 ≤ lo ≤ hi ≤ len(s)`. -/
def goSlice (s : GoString) (lo hi : Int) : Except Panic GoString :=
  if 0 ≤ lo ∧ lo ≤ hi ∧ hi ≤ (s.length : Int) then
    .ok ((s.drop lo.toNat).take (hi.toNat - lo.toNat))
  else
    .error .sliceOutOfRange

/-- Go's `strings.Contains(s, substr)`: `substr` occurs in `s` at some byte
position (the empty string occurs in every string). -/
def stringsContains : GoString → GoString → Bool
  | [], substr => substr.isEmpty
  | c :: cs, substr => substr.isPrefixOf (c :: cs) || stringsContains cs substr

/-- A compiled `*regexp.Regexp`, known through its method `MatchString`. -/
structure Regexp where
  MatchString : GoString → Bool

/-- Modelled from the spec: the `models` package is not among the sources.
The type of an entity annotation is a string; this is the value that marks a
bot command. -/
def MessageEntityTypeBotCommand : GoString :=
  ascii ['b', 'o', 't', '_', 'c', 'o', 'm', 'm', 'a', 'n', 'd']

/-- Modelled from the spec: `models.MessageEntity`, an entity annotation with
a type, a byte offset and a byte length. -/
structure MessageEntity where
  EntityType : GoString
  Offset : Int
  Length : Int
  deriving DecidableEq

/-- Modelled from the spec: `models.Message`, with the fields `match` reads
and an identifier it does not read. -/
structure Message where
  ID : Int := 0
  Text : GoString := []
  Entities : List MessageEntity := []
  Caption : GoString := []
  CaptionEntities : List MessageEntity := []
  deriving DecidableEq

/-- Modelled from the spec: `models.CallbackQuery`. -/
structure CallbackQuery where
  ID : GoString := []
  Data : GoString := []
  GameShortName : GoString := []
  deriving DecidableEq

/-- Modelled from the spec: `models.Update`; each payload pointer may be nil. -/
structure Update where
  ID : Int := 0
  Message : Option Message := none
  CallbackQuery : Option CallbackQuery := none
  deriving DecidableEq

/-- `type HandlerType int`. -/
abbrev HandlerType := Int

def HandlerTypeMessageText : HandlerType := 0
def HandlerTypeCommand : HandlerType := 1
def HandlerTypeCallbackQueryData : HandlerType := 2
def HandlerTypeCallbackQueryGameShortName : HandlerType := 3
def HandlerTypePhotoCaption : HandlerType := 4

/-- The dynamic type of the `pattern any` field, as the type switch of
`match` sees it. -/
inductive Pattern where
  /-- `case string`. -/
  | str (s : GoString)
  /-- `case *regexp.Regexp`, a non-nil pointer. -/
  | regexp (r : Regexp)
  /-- `case *regexp.Regexp`, a nil pointer of that type. -/
  | nilRegexp
  /-- `default`: the nil interface, no pattern at all. -/
  | nil
  /-- `default`: a value of any other type. -/
  | other

/-- `type MatchFunc func(update *models.Update) bool`. -/
abbrev MatchFunc := Update → Bool

/-- The `handler` struct.  `HandlerFunc` is the type of callbacks, which
`match` never inspects; a nil `matchFunc` is `none`. -/
structure handler (HandlerFunc : Type) where
  id : GoString
  handlerType : HandlerType
  handler : HandlerFunc
  pattern : Pattern
  re : Option Regexp
  matchFunc : Option MatchFunc

/-- The first `switch` of `match` (lines 38-61): `none` is the early
`return false`; otherwise the values of `data` and `entities` after the
switch.  A category without a `case` leaves both at their zero value. -/
def selectData (handlerType : HandlerType) (update : Update) :
    Option (GoString × List MessageEntity) :=
  if handlerType = HandlerTypeMessageText ∨ handlerType = HandlerTypeCommand then
    match update.Message with
    | none => none
    | some m => some (m.Text, m.Entities)
  else if handlerType = HandlerTypeCallbackQueryData then
    match update.CallbackQuery with
    | none => none
    | some q => some (q.Data, [])
  else if handlerType = HandlerTypeCallbackQueryGameShortName then
    match update.CallbackQuery with
    | none => none
    | some q => some (q.GameShortName, [])
  else if handlerType = HandlerTypePhotoCaption then
    match update.Message with
    | none => none
    | some m => some (m.Caption, m.CaptionEntities)
  else
    some ([], [])

/-- The loop of the command branch (lines 66-73): scan the entities in order;
the slice is evaluated only after `e.Offset == 0` (short-circuit `&&`). -/
def matchCommand (data pattern : GoString) : List MessageEntity → Except Panic Bool
  | [] => .ok false
  | e :: entities =>
    if e.EntityType = MessageEntityTypeBotCommand then
      if e.Offset = 0 then
        match goSlice data (e.Offset + 1) (e.Offset + e.Length) with
        | .error p => .error p
        | .ok s => if s = pattern then .ok true else matchCommand data pattern entities
      else matchCommand data pattern entities
    else matchCommand data pattern entities

/-- The method `handler.match`.  `compile` is `regexp.Compile`:
`regexp.MustCompile` panics where it returns no expression. -/
def handler.match {HandlerFunc : Type} (compile : GoString → Option Regexp)
    (h : Bot.handler HandlerFunc) (update : Update) : Except Panic Bool :=
  match h.matchFunc with
  | some f => .ok (f update)
  | none =>
    match selectData h.handlerType update with
    | none => .ok false
    | some (data, entities) =>
      match h.pattern with
      | .str pattern =>
        if h.handlerType = HandlerTypeCommand then
          matchCommand data pattern entities
        else
          match compile pattern with
          | none => .error .regexpCompile
          | some p => .ok (p.MatchString data || stringsContains data pattern)
      | .regexp r => .ok (r.MatchString data)
      | .nilRegexp => .error .nilDereference
      | .nil => .ok false
      | .other => .ok false

/-- The loop of `UnregisterHandler` (lines 123-128) started at index `i`:
the position of the first handler from there on whose id is `id`. -/
def findIndexFrom {HandlerFunc : Type} (id : GoString) :
    List (handler HandlerFunc) → Nat → Option Nat
  | [], _ => none
  | h :: hs, i => if h.id = id then some i else findIndexFrom id hs (i + 1)

/-- `Bot.UnregisterHandler` on the handler list `b.handlers`: at the first
index `i` with `h.id == id` the list becomes
`append(b.handlers[:i], b.handlers[i+1:]...)`; with no such index it is left
as it is. -/
def UnregisterHandler {HandlerFunc : Type} (handlers : List (handler HandlerFunc))
    (id : GoString) : List (handler HandlerFunc) :=
  match findIndexFrom id handlers 0 with
  | some i => handlers.take i ++ handlers.drop (i + 1)
  | none => handlers

/-- The text that step 2 of the matcher selects for a recognised category:
the message text (message-text, command), the callback data, the game short
name, or the caption; nothing when the update lacks the container or the
category is not recognised. -/
def selectedText (category : HandlerType) (update : Update) : Option GoString :=
  if category = HandlerTypeMessageText ∨ category = HandlerTypeCommand then
    update.Message.map (·.Text)
  else if category = HandlerTypeCallbackQueryData then
    update.CallbackQuery.map (·.Data)
  else if category = HandlerTypeCallbackQueryGameShortName then
    update.CallbackQuery.map (·.GameShortName)
  else if category = HandlerTypePhotoCaption then
    update.Message.map (·.Caption)
  else
    none

/-- A handler built by pattern: no custom predicate. -/
def mkPatternHandler (id : GoString) (handlerType : HandlerType) (pattern : Pattern) :
    handler Unit :=
  { id := id, handlerType := handlerType, handler := (), pattern := pattern,
    re := none, matchFunc := none }

/-- The expression that matches exactly the texts containing `p` literally. -/
def literalRegexp (p : GoString) : Regexp := ⟨fun t => stringsContains t p⟩

/-- A toy engine for concrete runs: every source compiles to the expression
that matches exactly the texts containing the source literally. -/
def literalCompile : GoString → Option Regexp :=
  fun p => some (literalRegexp p)

/-- The handler of `Test_match_contains`: callback data containing `abc`. -/
def abcHandler : handler Unit :=
  mkPatternHandler [] HandlerTypeCallbackQueryData (.str (ascii ['a', 'b', 'c']))

/-- The matching update of `Test_match_contains`: callback data `xxabcdef`. -/
def abcUpdate : Update :=
  { CallbackQuery := some { Data := ascii ['x', 'x', 'a', 'b', 'c', 'd', 'e', 'f'] } }

/-- A handler whose pattern is the precompiled expression for `abc`. -/
def abcRegexpHandler : handler Unit :=
  mkPatternHandler [] HandlerTypeCommand (.regexp (literalRegexp (ascii ['a', 'b', 'c'])))

/-- An update with a message whose text contains `abc`, and a stray entity. -/
def abcMessageUpdate : Update :=
  { Message := some { Text := ascii ['x', 'a', 'b', 'c'],
                      Entities := [⟨MessageEntityTypeBotCommand, 0, 99⟩] } }

/-- The update of `Test_match_func`: only the identifier 42. -/
def update42 : Update := { ID := 42 }

/-- An engine that rejects every source. -/
def rejectCompile : GoString → Option Regexp := fun _ => none

/-- The entity `e` is a bot command at offset 0 whose span, without the
leading marker byte, is `pattern`. -/
def commandHit (data pattern : GoString) (e : MessageEntity) : Bool :=
  decide (e.EntityType = MessageEntityTypeBotCommand) && decide (e.Offset = 0)
    && decide ((data.drop 1).take (e.Length.toNat - 1) = pattern)

/-- The test inputs of `Test_match_command`: a handler for the command `foo`. -/
def fooHandler : handler Unit :=
  mkPatternHandler [] HandlerTypeCommand (.str (ascii ['f', 'o', 'o']))

/-- The update `/foo arg1 arg2` with a bot-command entity at offset 0, length 4. -/
def fooArgsMessage : Message :=
  { Text := ascii ['/', 'f', 'o', 'o', ' ', 'a', 'r', 'g', '1', ' ', 'a', 'r', 'g', '2'],
    Entities := [⟨MessageEntityTypeBotCommand, 0, 4⟩] }

/-- The update `/foo` with a bot-command entity at offset 0, length 4. -/
def fooMessage : Message :=
  { Text := ascii ['/', 'f', 'o', 'o'],
    Entities := [⟨MessageEntityTypeBotCommand, 0, 4⟩] }

/-- The five categories `match` has a `case` for. -/
def recognised (category : HandlerType) : Bool :=
  decide (category = HandlerTypeMessageText ∨ category = HandlerTypeCommand ∨
    category = HandlerTypeCallbackQueryData ∨
    category = HandlerTypeCallbackQueryGameShortName ∨ category = HandlerTypePhotoCaption)

/-- The input of `Test_match_invalid_type`: category `-1`, pattern `""`. -/
def invalidTypeHandler : handler Unit := mkPatternHandler [] (-1) (.str [])

/-- The update of `Test_match_invalid_type`: callback data `123abc`. -/
def invalidTypeUpdate : Update :=
  { CallbackQuery := some { Data := ascii ['1', '2', '3', 'a', 'b', 'c'] } }

/-- A handler built by predicate, with the zero values in the other fields. -/
def mkMatchFuncHandler (id : GoString) (f : MatchFunc) : handler Unit :=
  { id := id, handlerType := 0, handler := (), pattern := .nil, re := none,
    matchFunc := some f }

/-- The entity `e` is a bot command at offset 0 whose length is below 1 or
beyond the text, so that the slice `data[1:Length]` is out of range. -/
def outOfRange (data : GoString) (e : MessageEntity) : Bool :=
  decide (e.EntityType = MessageEntityTypeBotCommand) && decide (e.Offset = 0)
    && decide (e.Length < 1 ∨ (data.length : Int) < e.Length)

/-- A message with empty text and a bot-command entity of length 0 at offset 0. -/
def emptyCommandMessage : Message :=
  { Text := [], Entities := [⟨MessageEntityTypeBotCommand, 0, 0⟩] }

/-- A handler for message text whose literal pattern is `(`, which is not a
regular expression. -/
def parenHandler : handler Unit :=
  mkPatternHandler [] HandlerTypeMessageText (.str (ascii ['(']))

/-- An update with the message text `x`. -/
def xUpdate : Update := { Message := some { Text := ascii ['x'] } }

/-! ## The registry operations -/

/-- `type Middleware func(next HandlerFunc) HandlerFunc`. -/
abbrev Middleware (HandlerFunc : Type) := HandlerFunc → HandlerFunc

/-- `Bot.RegisterHandler` on the handler list `b.handlers`: the new list and
the returned id.  Two helpers are not among the sources and are taken as
arguments: `applyMiddlewares`, and `id`, the outcome of `RandomString(16)`.
The fields the struct literal leaves out (`re`, `matchFunc`) have their zero
value. -/
def RegisterHandler {HandlerFunc : Type}
    (applyMiddlewares : HandlerFunc → List (Middleware HandlerFunc) → HandlerFunc)
    (id : GoString) (handlers : List (handler HandlerFunc)) (handlerType : HandlerType)
    (pattern : Pattern) (f : HandlerFunc) (m : List (Middleware HandlerFunc)) :
    List (handler HandlerFunc) × GoString :=
  let h : handler HandlerFunc :=
    { id := id, handlerType := handlerType, pattern := pattern,
      handler := applyMiddlewares f m, re := none, matchFunc := none }
  (handlers ++ [h], id)

/-- `Bot.RegisterHandlerMatchFunc`: as `RegisterHandler`, with the predicate
stored (a nil predicate is `none`) and the zero value in `handlerType`,
`pattern` and `re`. -/
def RegisterHandlerMatchFunc {HandlerFunc : Type}
    (applyMiddlewares : HandlerFunc → List (Middleware HandlerFunc) → HandlerFunc)
    (id : GoString) (handlers : List (handler HandlerFunc)) (matchFunc : Option MatchFunc)
    (f : HandlerFunc) (m : List (Middleware HandlerFunc)) :
    List (handler HandlerFunc) × GoString :=
  let h : handler HandlerFunc :=
    { id := id, matchFunc := matchFunc, handler := applyMiddlewares f m,
      handlerType := 0, pattern := .nil, re := none }
  (handlers ++ [h], id)

/-- `findHandler` of `handlers_test.go`: the first handler with the id, or nil. -/
def findHandler {HandlerFunc : Type} (handlers : List (handler HandlerFunc)) (id : GoString) :
    Option (handler HandlerFunc) :=
  match handlers with
  | [] => none
  | h :: hs => if h.id = id then some h else findHandler hs id

/-- A call of one of the three registry operations, with its arguments; for
a registration, `id` is the string `RandomString(16)` produced. -/
inductive Call (HandlerFunc : Type) where
  | register (id : GoString) (handlerType : HandlerType) (pattern : Pattern)
      (f : HandlerFunc) (m : List (Middleware HandlerFunc))
  | registerMatchFunc (id : GoString) (matchFunc : Option MatchFunc)
      (f : HandlerFunc) (m : List (Middleware HandlerFunc))
  | unregister (id : GoString)

/-- The handler list after one call. -/
def step {HandlerFunc : Type}
    (applyMiddlewares : HandlerFunc → List (Middleware HandlerFunc) → HandlerFunc)
    (handlers : List (handler HandlerFunc)) : Call HandlerFunc → List (handler HandlerFunc)
  | .register id handlerType pattern f m =>
    (RegisterHandler applyMiddlewares id handlers handlerType pattern f m).1
  | .registerMatchFunc id matchFunc f m =>
    (RegisterHandlerMatchFunc applyMiddlewares id handlers matchFunc f m).1
  | .unregister id => UnregisterHandler handlers id

/-- The handler list after a sequence of calls. -/
def run {HandlerFunc : Type}
    (applyMiddlewares : HandlerFunc → List (Middleware HandlerFunc) → HandlerFunc)
    (handlers : List (handler HandlerFunc)) : List (Call HandlerFunc) → List (handler HandlerFunc)
  | [] => handlers
  | c :: cs => run applyMiddlewares (step applyMiddlewares handlers c) cs

/-- Every generated id is fresh: at each registration of the sequence the id
differs from the id of every handler in the registry at that moment. -/
def freshIds {HandlerFunc : Type}
    (applyMiddlewares : HandlerFunc → List (Middleware HandlerFunc) → HandlerFunc)
    (handlers : List (handler HandlerFunc)) : List (Call HandlerFunc) → Bool
  | [] => true
  | .register id handlerType pattern f m :: cs =>
    handlers.all (fun h => decide (h.id ≠ id)) &&
      freshIds applyMiddlewares
        (step applyMiddlewares handlers (.register id handlerType pattern f m)) cs
  | .registerMatchFunc id matchFunc f m :: cs =>
    handlers.all (fun h => decide (h.id ≠ id)) &&
      freshIds applyMiddlewares
        (step applyMiddlewares handlers (.registerMatchFunc id matchFunc f m)) cs
  | .unregister id :: cs =>
    freshIds applyMiddlewares (step applyMiddlewares handlers (.unregister id)) cs

/-- Middlewares on a callback without content: nothing to wrap. -/
def unitMiddlewares : Unit → List (Middleware Unit) → Unit := fun _ _ => ()

/-- Two ids for concrete runs. -/
def idA : GoString := ascii ['a']

def idB : GoString := ascii ['b']

/-- The calls of `TestBot_RegisterUnregisterHandler`: two registrations for
callback data with the pattern `""`, then the removal of the first. -/
def testCalls : List (Call Unit) :=
  [.register idA HandlerTypeCallbackQueryData (.str []) () [],
   .register idB HandlerTypeCallbackQueryData (.str []) () [],
   .unregister idA]

/-- The registry after the two registrations of the test. -/
def twoHandlers : List (handler Unit) :=
  [mkPatternHandler idA HandlerTypeCallbackQueryData (.str []),
   mkPatternHandler idB HandlerTypeCallbackQueryData (.str [])]

/-- The pattern field holds a value: it is not the nil interface. -/
def Pattern.present : Pattern → Bool
  | .nil => false
  | _ => true

/-- An id that no handler of the concrete runs has. -/
def idC : GoString := ascii ['c']

/-- The fields of an update that a category selects, as the spec lists them:
the message text (message-text), the message text and entities (command), the
callback data, the game short name, the caption (photo-caption); nothing when
the container is absent or the category is not recognised. -/
def selectedFields (category : HandlerType) (update : Update) :
    Option (GoString × List MessageEntity) :=
  if category = HandlerTypeMessageText then
    update.Message.map fun m => (m.Text, [])
  else if category = HandlerTypeCommand then
    update.Message.map fun m => (m.Text, m.Entities)
  else if category = HandlerTypeCallbackQueryData then
    update.CallbackQuery.map fun q => (q.Data, [])
  else if category = HandlerTypeCallbackQueryGameShortName then
    update.CallbackQuery.map fun q => (q.GameShortName, [])
  else if category = HandlerTypePhotoCaption then
    update.Message.map fun m => (m.Caption, [])
  else
    none

/-- The loop of the command branch with a record of its slice evaluations:
the result of the scan, and the entities for which `data[e.Offset+1 :
e.Offset+e.Length]` was evaluated, in order. -/
def matchCommandLog (data pattern : GoString) :
    List MessageEntity → Except Panic Bool × List MessageEntity
  | [] => (.ok false, [])
  | e :: entities =>
    if e.EntityType = MessageEntityTypeBotCommand then
      if e.Offset = 0 then
        match goSlice data (e.Offset + 1) (e.Offset + e.Length) with
        | .error p => (.error p, [e])
        | .ok s =>
          if s = pattern then (.ok true, [e])
          else ((matchCommandLog data pattern entities).1,
                e :: (matchCommandLog data pattern entities).2)
      else matchCommandLog data pattern entities
    else matchCommandLog data pattern entities

/-- A photo-caption handler for the literal `abc`. -/
def captionHandler : handler Unit :=
  mkPatternHandler [] HandlerTypePhotoCaption (.str (ascii ['a', 'b', 'c']))

/-- Two updates with the same caption that differ in every other field. -/
def captionUpdate1 : Update :=
  { ID := 1, Message := some { Text := ascii ['z'], Caption := ascii ['x', 'a', 'b', 'c'] } }

def captionUpdate2 : Update :=
  { ID := 2,
    Message := some { ID := 7, Text := ascii ['a', 'b', 'c'],
                      Entities := [⟨MessageEntityTypeBotCommand, 0, 9⟩],
                      Caption := ascii ['x', 'a', 'b', 'c'],
                      CaptionEntities := [⟨MessageEntityTypeBotCommand, 0, 9⟩] },
    CallbackQuery := some { Data := ascii ['q'] } }

/-- A message-text handler with the empty literal pattern. -/
def emptyPatternHandler : handler Unit :=
  mkPatternHandler [] HandlerTypeMessageText (.str [])

/-- An update whose message has empty text. -/
def emptyTextUpdate : Update := { Message := some { Text := [] } }

/-- A callback-data handler whose pattern is a nil `*regexp.Regexp`. -/
def nilRegexpHandler : handler Unit :=
  mkPatternHandler [] HandlerTypeCallbackQueryData .nilRegexp

/-! ## Auxiliary facts -/

/-- `stringsContains` decides the infix relation on byte sequences. -/
theorem stringsContains_iff (s substr : GoString) :
    stringsContains s substr = true ↔ substr <:+: s := by
  induction s with
  | nil => simp [stringsContains, List.isEmpty_iff]
  | cons c cs ih =>
    rw [stringsContains, Bool.or_eq_true, ih, List.isPrefixOf_iff_prefix,
      List.infix_cons_iff]

/-- An in-range slice from position 1 is the text without its first byte, cut
to `hi - 1` bytes. -/
theorem goSlice_one (s : GoString) (hi : Int) (h1 : 1 ≤ hi) (h2 : hi ≤ (s.length : Int)) :
    goSlice s (0 + 1) (0 + hi) = .ok ((s.drop 1).take (hi.toNat - 1)) := by
  have : (0:Int) ≤ 0 + 1 ∧ (0:Int) + 1 ≤ 0 + hi ∧ 0 + hi ≤ (s.length : Int) := by omega
  simp only [goSlice, this, and_self, if_true]
  simp

/-- A slice from position 1 fails exactly when its end is below 1 or beyond
the text. -/
theorem goSlice_one_error (s : GoString) (hi : Int) (h : hi < 1 ∨ (s.length : Int) < hi) :
    goSlice s (0 + 1) (0 + hi) = .error .sliceOutOfRange := by
  have : ¬ ((0:Int) ≤ 0 + 1 ∧ (0:Int) + 1 ≤ 0 + hi ∧ 0 + hi ≤ (s.length : Int)) := by omega
  simp only [goSlice, this, if_false]

/-- With every bot command at offset 0 in range, the scan returns whether
some entity hits. -/
theorem matchCommand_inRange (data pattern : GoString) (es : List MessageEntity)
    (hlen : ∀ e ∈ es, e.EntityType = MessageEntityTypeBotCommand → e.Offset = 0 →
      1 ≤ e.Length ∧ e.Length ≤ (data.length : Int)) :
    matchCommand data pattern es = .ok (es.any (commandHit data pattern)) := by
  induction es with
  | nil => rfl
  | cons e es ih =>
    have ih' := ih (fun x hx => hlen x (List.mem_cons_of_mem _ hx))
    rw [matchCommand, List.any_cons]
    by_cases ht : e.EntityType = MessageEntityTypeBotCommand
    · by_cases ho : e.Offset = 0
      · obtain ⟨h1, h2⟩ := hlen e (List.mem_cons_self _ _) ht ho
        rw [if_pos ht, if_pos ho, ho, goSlice_one data e.Length h1 h2]
        by_cases hs : (data.drop 1).take (e.Length.toNat - 1) = pattern
        · simp only [commandHit, ht, ho, hs, if_true, decide_True, Bool.and_self, Bool.true_or]
        · simp only [commandHit, ht, ho, hs, if_false, decide_True, decide_False, Bool.and_false,
            Bool.false_or, ih']
      · rw [if_pos ht, if_neg ho, ih']
        simp only [commandHit, ho, decide_False, Bool.and_false, Bool.false_and, Bool.false_or]
    · rw [if_neg ht, ih']
      simp only [commandHit, ht, decide_False, Bool.false_and, Bool.false_or]

/-- With no custom predicate, the command category and a literal pattern, on
an update with a message, `match` is the entity scan over the message text. -/
theorem match_eq_matchCommand {F : Type} (compile : GoString → Option Regexp)
    (h : handler F) (u : Update) (m : Message) (p : GoString)
    (hf : h.matchFunc = none) (hc : h.handlerType = HandlerTypeCommand)
    (hp : h.pattern = .str p) (hu : u.Message = some m) :
    h.match compile u = matchCommand m.Text p m.Entities := by
  simp [handler.match, hf, hc, hp, hu, selectData]

/-- The hit test reads the text only inside the entity span. -/
theorem commandHit_congr (t t' p : GoString) (e : MessageEntity)
    (h : t'.take e.Length.toNat = t.take e.Length.toNat) :
    commandHit t' p e = commandHit t p e := by
  have : (t'.drop 1).take (e.Length.toNat - 1) = (t.drop 1).take (e.Length.toNat - 1) := by
    rw [← List.drop_take, ← List.drop_take, h]
  simp only [commandHit, this]

/-- Two tests that agree on the members of a list have the same `any`. -/
theorem any_eq_of_agree {α : Type} (f g : α → Bool) (l : List α)
    (h : ∀ x ∈ l, f x = g x) : l.any f = l.any g := by
  induction l with
  | nil => rfl
  | cons x xs ih =>
    rw [List.any_cons, List.any_cons, h x (List.mem_cons_self _ _),
      ih (fun y hy => h y (List.mem_cons_of_mem _ hy))]

/-- Where the matcher's step 2 selects the text `t`, the category switch of
the code sets `data` to `t`. -/
theorem selectData_of_selectedText (c : HandlerType) (u : Update) (t : GoString)
    (ht : selectedText c u = some t) : ∃ es, selectData c u = some (t, es) := by
  unfold selectedText at ht
  unfold selectData
  split_ifs at ht ⊢ with h1 h2 h3 h4
  · cases hm : u.Message <;> simp_all
  · cases hq : u.CallbackQuery <;> simp_all
  · cases hq : u.CallbackQuery <;> simp_all
  · cases hm : u.Message <;> simp_all

/-- The scan stops with a panic at an out-of-range bot command. -/
theorem matchCommand_cons_outOfRange (data pattern : GoString) (e : MessageEntity)
    (es : List MessageEntity) (hbad : outOfRange data e = true) :
    matchCommand data pattern (e :: es) = .error .sliceOutOfRange := by
  simp only [outOfRange, Bool.and_eq_true, decide_eq_true_eq] at hbad
  obtain ⟨⟨ht, ho⟩, hr⟩ := hbad
  rw [matchCommand, if_pos ht, if_pos ho, ho, goSlice_one_error data e.Length hr]

/-- The scan stops with true at an in-range entity that hits. -/
theorem matchCommand_cons_hit (data pattern : GoString) (e : MessageEntity)
    (es : List MessageEntity) (hgood : outOfRange data e = false)
    (hhit : commandHit data pattern e = true) :
    matchCommand data pattern (e :: es) = .ok true := by
  simp only [commandHit, Bool.and_eq_true, decide_eq_true_eq] at hhit
  obtain ⟨⟨ht, ho⟩, hs⟩ := hhit
  have hr : 1 ≤ e.Length ∧ e.Length ≤ (data.length : Int) := by
    simp only [outOfRange, ht, ho, decide_True, Bool.true_and, decide_eq_false_iff_not] at hgood
    omega
  rw [matchCommand, if_pos ht, if_pos ho, ho, goSlice_one data e.Length hr.1 hr.2]
  simp only [hs, if_true]

/-- The scan passes over an in-range entity that does not hit. -/
theorem matchCommand_cons_skip (data pattern : GoString) (e : MessageEntity)
    (es : List MessageEntity) (hgood : outOfRange data e = false)
    (hmiss : commandHit data pattern e = false) :
    matchCommand data pattern (e :: es) = matchCommand data pattern es := by
  rw [matchCommand]
  by_cases ht : e.EntityType = MessageEntityTypeBotCommand
  · by_cases ho : e.Offset = 0
    · have hr : 1 ≤ e.Length ∧ e.Length ≤ (data.length : Int) := by
        simp only [outOfRange, ht, ho, decide_True, Bool.true_and,
          decide_eq_false_iff_not] at hgood
        omega
      have hs : ¬ (data.drop 1).take (e.Length.toNat - 1) = pattern := by
        simpa only [commandHit, ht, ho, decide_True, Bool.true_and,
          decide_eq_false_iff_not] using hmiss
      rw [if_pos ht, if_pos ho, ho, goSlice_one data e.Length hr.1 hr.2]
      simp only [hs, if_false]
    · rw [if_pos ht, if_neg ho]
  · rw [if_neg ht]

/-- The scan fails exactly when it reaches an out-of-range bot command: one
preceded only by in-range entities that do not hit. -/
theorem matchCommand_error_iff (data pattern : GoString) (es : List MessageEntity) :
    matchCommand data pattern es = .error .sliceOutOfRange ↔
      ∃ pre e post, es = pre ++ e :: post ∧ outOfRange data e = true ∧
        ∀ x ∈ pre, outOfRange data x = false ∧ commandHit data pattern x = false := by
  induction es with
  | nil =>
    constructor
    · intro h
      simp [matchCommand] at h
    · rintro ⟨pre, e, post, h, -⟩
      simp at h
  | cons a as ih =>
    cases hbad : outOfRange data a with
    | true =>
      rw [matchCommand_cons_outOfRange data pattern a as hbad]
      exact ⟨fun _ => ⟨[], a, as, rfl, hbad, by simp⟩, fun _ => rfl⟩
    | false =>
      cases hhit : commandHit data pattern a with
      | true =>
        rw [matchCommand_cons_hit data pattern a as hbad hhit]
        constructor
        · intro h
          simp at h
        · rintro ⟨pre, e, post, h, he, hpre⟩
          cases pre with
          | nil =>
            simp only [List.nil_append, List.cons.injEq] at h
            rw [← h.1, hbad] at he
            simp at he
          | cons b bs =>
            simp only [List.cons_append, List.cons.injEq] at h
            have := (hpre b (List.mem_cons_self _ _)).2
            rw [← h.1, hhit] at this
            simp at this
      | false =>
        rw [matchCommand_cons_skip data pattern a as hbad hhit, ih]
        constructor
        · rintro ⟨pre, e, post, h, he, hpre⟩
          refine ⟨a :: pre, e, post, by rw [h, List.cons_append], he, ?_⟩
          intro x hx
          rcases List.mem_cons.1 hx with rfl | hx
          · exact ⟨hbad, hhit⟩
          · exact hpre x hx
        · rintro ⟨pre, e, post, h, he, hpre⟩
          cases pre with
          | nil =>
            simp only [List.nil_append, List.cons.injEq] at h
            rw [← h.1, hbad] at he
            simp at he
          | cons b bs =>
            simp only [List.cons_append, List.cons.injEq] at h
            exact ⟨bs, e, post, h.2, he, fun x hx => hpre x (List.mem_cons_of_mem _ hx)⟩

/-- The only failure of the scan is the out-of-range slice. -/
theorem matchCommand_error_kind (data pattern : GoString) (es : List MessageEntity)
    (q : Panic) (h : matchCommand data pattern es = .error q) : q = .sliceOutOfRange := by
  induction es with
  | nil => simp [matchCommand] at h
  | cons a as ih =>
    cases hbad : outOfRange data a with
    | true =>
      rw [matchCommand_cons_outOfRange data pattern a as hbad] at h
      exact (Except.error.inj h).symm
    | false =>
      cases hhit : commandHit data pattern a with
      | true =>
        rw [matchCommand_cons_hit data pattern a as hbad hhit] at h
        simp at h
      | false =>
        rw [matchCommand_cons_skip data pattern a as hbad hhit] at h
        exact ih h

/-- The index search finds nothing exactly when no handler has the id. -/
theorem findIndexFrom_eq_none {F : Type} (id : GoString) (hs : List (handler F)) (i : Nat) :
    findIndexFrom id hs i = none ↔ ∀ h ∈ hs, h.id ≠ id := by
  induction hs generalizing i with
  | nil => simp [findIndexFrom]
  | cons a as ih =>
    rw [findIndexFrom]
    by_cases ha : a.id = id
    · simp [ha]
    · rw [if_neg ha, ih]
      simp [ha]

/-- The index the search finds splits the list at the first handler with the
id. -/
theorem findIndexFrom_eq_some {F : Type} (id : GoString) (hs : List (handler F)) (i k : Nat)
    (hk : findIndexFrom id hs i = some k) :
    ∃ pre h post, hs = pre ++ h :: post ∧ (∀ x ∈ pre, x.id ≠ id) ∧ h.id = id ∧
      k = i + pre.length := by
  induction hs generalizing i with
  | nil => simp [findIndexFrom] at hk
  | cons a as ih =>
    rw [findIndexFrom] at hk
    by_cases ha : a.id = id
    · rw [if_pos ha] at hk
      exact ⟨[], a, as, rfl, by simp, ha, by simpa using (Option.some.inj hk).symm⟩
    · rw [if_neg ha] at hk
      obtain ⟨pre, h, post, hsplit, hpre, hh, hlen⟩ := ih (i + 1) hk
      refine ⟨a :: pre, h, post, by rw [hsplit, List.cons_append], ?_, hh, ?_⟩
      · intro x hx
        rcases List.mem_cons.1 hx with rfl | hx
        · exact ha
        · exact hpre x hx
      · rw [hlen, List.length_cons]
        omega

/-- `UnregisterHandler` is the erasure of the first handler with the id. -/
theorem UnregisterHandler_eq_eraseP {F : Type} (hs : List (handler F)) (id : GoString) :
    UnregisterHandler hs id = hs.eraseP (fun h => decide (h.id = id)) := by
  cases hfind : findIndexFrom id hs 0 with
  | none =>
    have hno := (findIndexFrom_eq_none id hs 0).1 hfind
    simp only [UnregisterHandler, hfind]
    rw [List.eraseP_of_forall_not]
    intro a ha
    simpa using hno a ha
  | some k =>
    obtain ⟨pre, h, post, hsplit, hpre, hh, hk⟩ := findIndexFrom_eq_some id hs 0 k hfind
    simp only [UnregisterHandler, hfind]
    subst hsplit
    rw [hk, Nat.zero_add, List.take_left, List.drop_append,
      List.eraseP_append_right _ (by intro a ha; simpa using hpre a ha),
      List.eraseP_cons_of_pos (by simpa using hh)]
    rfl

/-- Removal keeps the ids pairwise distinct. -/
theorem UnregisterHandler_nodup {F : Type} (hs : List (handler F)) (id : GoString)
    (hnd : (hs.map (·.id)).Nodup) : ((UnregisterHandler hs id).map (·.id)).Nodup := by
  rw [UnregisterHandler_eq_eraseP]
  exact hnd.sublist ((List.eraseP_sublist hs).map _)

/-- Removing the id of a handler appended to a list without that id gives the
list back. -/
theorem UnregisterHandler_append_fresh {F : Type} (hs : List (handler F)) (h : handler F)
    (hfresh : ∀ x ∈ hs, x.id ≠ h.id) : UnregisterHandler (hs ++ [h]) h.id = hs := by
  rw [UnregisterHandler_eq_eraseP,
    List.eraseP_append_right _ (by intro a ha; simpa using hfresh a ha),
    List.eraseP_cons_of_pos (by simp), List.append_nil]

/-- A lookup that succeeds returns a member of the list with the id. -/
theorem findHandler_some {F : Type} (hs : List (handler F)) (id : GoString) (h : handler F)
    (hfound : findHandler hs id = some h) : h ∈ hs ∧ h.id = id := by
  induction hs with
  | nil => simp [findHandler] at hfound
  | cons a as ih =>
    rw [findHandler] at hfound
    by_cases ha : a.id = id
    · rw [if_pos ha] at hfound
      obtain rfl := Option.some.inj hfound
      exact ⟨List.mem_cons_self _ _, ha⟩
    · rw [if_neg ha] at hfound
      exact ⟨List.mem_cons_of_mem _ (ih hfound).1, (ih hfound).2⟩

/-- A lookup fails exactly when no handler has the id. -/
theorem findHandler_eq_none {F : Type} (hs : List (handler F)) (id : GoString) :
    findHandler hs id = none ↔ ∀ h ∈ hs, h.id ≠ id := by
  induction hs with
  | nil => simp [findHandler]
  | cons a as ih =>
    rw [findHandler]
    by_cases ha : a.id = id
    · simp [ha]
    · rw [if_neg ha, ih]
      simp [ha]

/-- Erasing the first handler with one id does not change the lookup of
another id. -/
theorem findHandler_eraseP_ne {F : Type} (hs : List (handler F)) (id id' : GoString)
    (hne : id' ≠ id) :
    findHandler (hs.eraseP (fun h => decide (h.id = id))) id' = findHandler hs id' := by
  induction hs with
  | nil => rfl
  | cons a as ih =>
    by_cases ha : a.id = id
    · rw [List.eraseP_cons_of_pos (by simpa using ha)]
      have : ¬ a.id = id' := fun h' => hne (h'.symm.trans ha)
      rw [findHandler.eq_2, if_neg this]
    · rw [List.eraseP_cons_of_neg (by simpa using ha), findHandler.eq_2, findHandler.eq_2, ih]

/-- Appending a handler with a fresh id keeps the ids pairwise distinct. -/
theorem append_fresh_nodup {F : Type} (hs : List (handler F)) (h : handler F)
    (hnd : (hs.map (·.id)).Nodup) (hfresh : hs.all (fun x => decide (x.id ≠ h.id)) = true) :
    ((hs ++ [h]).map (·.id)).Nodup := by
  rw [List.map_append, List.map_cons, List.map_nil]
  refine List.Nodup.append hnd (List.nodup_singleton _) ?_
  intro a ha hb
  obtain ⟨x, hx, hxa⟩ := List.mem_map.1 ha
  rw [List.mem_singleton] at hb
  have := List.all_eq_true.1 hfresh x hx
  simp only [decide_eq_true_eq] at this
  exact this (hxa.trans hb)

/-- Fresh registrations and removals keep the ids pairwise distinct. -/
theorem run_nodup {F : Type} (applyMiddlewares : F → List (Middleware F) → F)
    (calls : List (Call F)) (hs : List (handler F)) (hnd : (hs.map (·.id)).Nodup)
    (hfresh : freshIds applyMiddlewares hs calls = true) :
    ((run applyMiddlewares hs calls).map (·.id)).Nodup := by
  induction calls generalizing hs with
  | nil => exact hnd
  | cons c cs ih =>
    cases c with
    | register id handlerType pattern f m =>
      rw [freshIds, Bool.and_eq_true] at hfresh
      rw [run]
      exact ih _ (append_fresh_nodup hs _ hnd hfresh.1) hfresh.2
    | registerMatchFunc id matchFunc f m =>
      rw [freshIds, Bool.and_eq_true] at hfresh
      rw [run]
      exact ih _ (append_fresh_nodup hs _ hnd hfresh.1) hfresh.2
    | unregister id =>
      rw [freshIds] at hfresh
      rw [run]
      exact ih _ (UnregisterHandler_nodup hs id hnd) hfresh

/-- The recorded scan returns what the scan returns. -/
theorem matchCommandLog_fst (data pattern : GoString) (es : List MessageEntity) :
    (matchCommandLog data pattern es).1 = matchCommand data pattern es := by
  induction es with
  | nil => rfl
  | cons e es ih =>
    rw [matchCommandLog, matchCommand]
    by_cases ht : e.EntityType = MessageEntityTypeBotCommand
    · by_cases ho : e.Offset = 0
      · rw [if_pos ht, if_pos ho, if_pos ht, if_pos ho]
        cases goSlice data (e.Offset + 1) (e.Offset + e.Length) with
        | error q => rfl
        | ok t =>
          by_cases hs : t = pattern
          · simp only [hs, if_true]
          · simp only [hs, if_false, ih]
      · rw [if_pos ht, if_neg ho, if_pos ht, if_neg ho, ih]
    · rw [if_neg ht, if_neg ht, ih]

/-- The slice is evaluated only for entities of the list that are bot
commands at offset 0. -/
theorem matchCommandLog_mem (data pattern : GoString) (es : List MessageEntity)
    (e : MessageEntity) (he : e ∈ (matchCommandLog data pattern es).2) :
    e ∈ es ∧ e.EntityType = MessageEntityTypeBotCommand ∧ e.Offset = 0 := by
  induction es with
  | nil => simp [matchCommandLog] at he
  | cons a as ih =>
    rw [matchCommandLog] at he
    by_cases ht : a.EntityType = MessageEntityTypeBotCommand
    · by_cases ho : a.Offset = 0
      · rw [if_pos ht, if_pos ho] at he
        have hhead : e = a → e ∈ a :: as ∧ e.EntityType = MessageEntityTypeBotCommand ∧
            e.Offset = 0 := by
          rintro rfl
          exact ⟨List.mem_cons_self _ _, ht, ho⟩
        cases hg : goSlice data (a.Offset + 1) (a.Offset + a.Length) with
        | error q =>
          rw [hg] at he
          exact hhead (List.mem_singleton.1 he)
        | ok t =>
          rw [hg] at he
          by_cases hs : t = pattern
          · simp only [hs, if_true] at he
            exact hhead (List.mem_singleton.1 he)
          · simp only [hs, if_false] at he
            rcases List.mem_cons.1 he with h1 | h1
            · exact hhead h1
            · exact ⟨List.mem_cons_of_mem _ (ih h1).1, (ih h1).2⟩
      · rw [if_pos ht, if_neg ho] at he
        exact ⟨List.mem_cons_of_mem _ (ih he).1, (ih he).2⟩
    · rw [if_neg ht] at he
      exact ⟨List.mem_cons_of_mem _ (ih he).1, (ih he).2⟩

/-- Every text contains the empty string. -/
theorem stringsContains_empty (t : GoString) : stringsContains t [] = true :=
  (stringsContains_iff t []).2 List.nil_infix

/-- Where a recognised category finds no container in the update, the
category switch of the code returns early. -/
theorem selectData_none_of_selectedText (c : HandlerType) (u : Update)
    (hrec : recognised c = true) (hnone : selectedText c u = none) :
    selectData c u = none := by
  simp only [recognised, decide_eq_true_eq] at hrec
  unfold selectedText at hnone
  unfold selectData
  split_ifs at hnone ⊢ with h1 h2 h3 h4
  · cases hm : u.Message <;> simp_all
  · cases hq : u.CallbackQuery <;> simp_all
  · cases hq : u.CallbackQuery <;> simp_all
  · cases hm : u.Message <;> simp_all
  · rcases hrec with hrec | hrec | hrec | hrec | hrec <;> simp_all

/-! ## Command matching -/

/-- C1: for a handler with no custom predicate, the command category and a
literal pattern `p`, on an update whose message has every bot-command entity
at offset 0 with `1 ≤ Length ≤ len(Text)`, `match` returns a boolean that is
true exactly when some entity is a bot command at offset 0 whose bytes
`Text[1:Length]` equal `p`; and the result is the same for any other text
that agrees with `Text` inside those entity spans (text after the span is
ignored). -/
theorem match_command_iff {F : Type} (compile : GoString → Option Regexp)
    (h : handler F) (u : Update) (m : Message) (p : GoString)
    (hf : h.matchFunc = none) (hc : h.handlerType = HandlerTypeCommand)
    (hp : h.pattern = .str p) (hu : u.Message = some m)
    (hlen : ∀ e ∈ m.Entities, e.EntityType = MessageEntityTypeBotCommand → e.Offset = 0 →
      1 ≤ e.Length ∧ e.Length ≤ (m.Text.length : Int)) :
    (∃ b, h.match compile u = .ok b ∧
      (b = true ↔ ∃ e ∈ m.Entities, e.EntityType = MessageEntityTypeBotCommand ∧
        e.Offset = 0 ∧ (m.Text.drop 1).take (e.Length.toNat - 1) = p)) ∧
    (∀ (u' : Update) (m' : Message), u'.Message = some m' → m'.Entities = m.Entities →
      (∀ e ∈ m.Entities, e.EntityType = MessageEntityTypeBotCommand → e.Offset = 0 →
        e.Length ≤ (m'.Text.length : Int) ∧
        m'.Text.take e.Length.toNat = m.Text.take e.Length.toNat) →
      h.match compile u' = h.match compile u) := by
  have hm := match_eq_matchCommand compile h u m p hf hc hp hu
  have hscan := matchCommand_inRange m.Text p m.Entities hlen
  refine ⟨⟨_, hm.trans hscan, ?_⟩, ?_⟩
  · simp only [List.any_eq_true, commandHit, Bool.and_eq_true, decide_eq_true_eq, and_assoc]
  · intro u' m' hu' hes hagree
    rw [hm, match_eq_matchCommand compile h u' m' p hf hc hp hu', hes, hscan,
      matchCommand_inRange m'.Text p m.Entities
        (fun e he ht ho => ⟨(hlen e he ht ho).1, (hagree e he ht ho).1⟩)]
    congr 1
    apply any_eq_of_agree
    intro e he
    simp only [commandHit]
    by_cases ht : e.EntityType = MessageEntityTypeBotCommand
    · by_cases ho : e.Offset = 0
      · have := commandHit_congr m.Text m'.Text p e (hagree e he ht ho).2
        simpa only [commandHit] using this
      · simp only [ho, decide_False, Bool.and_false, Bool.false_and]
    · simp only [ht, decide_False, Bool.false_and]

/-- Witness for C1: `/foo arg1 arg2` against the command `foo`. -/
theorem match_command_iff_witness :
    (∀ e ∈ fooArgsMessage.Entities, e.EntityType = MessageEntityTypeBotCommand → e.Offset = 0 →
      1 ≤ e.Length ∧ e.Length ≤ (fooArgsMessage.Text.length : Int)) ∧
    ((∃ b, fooHandler.match literalCompile { Message := some fooArgsMessage } = .ok b ∧
      (b = true ↔ ∃ e ∈ fooArgsMessage.Entities, e.EntityType = MessageEntityTypeBotCommand ∧
        e.Offset = 0 ∧
        (fooArgsMessage.Text.drop 1).take (e.Length.toNat - 1) = ascii ['f', 'o', 'o'])) ∧
    (∀ (u' : Update) (m' : Message), u'.Message = some m' →
      m'.Entities = fooArgsMessage.Entities →
      (∀ e ∈ fooArgsMessage.Entities, e.EntityType = MessageEntityTypeBotCommand →
        e.Offset = 0 → e.Length ≤ (m'.Text.length : Int) ∧
        m'.Text.take e.Length.toNat = fooArgsMessage.Text.take e.Length.toNat) →
      fooHandler.match literalCompile u' =
        fooHandler.match literalCompile { Message := some fooArgsMessage })) :=
  ⟨by decide,
    match_command_iff literalCompile fooHandler { Message := some fooArgsMessage }
      fooArgsMessage (ascii ['f', 'o', 'o']) rfl rfl rfl rfl (by decide)⟩

/-! ## Categories and pattern kinds -/

/-- C2 (the code at the input of `Test_match_invalid_type`): with category
`-1`, the literal pattern `""` and an update carrying callback data `123abc`,
`match` does not return false: the category switch leaves `data` empty, and
the result is the panic of `MustCompile` when `""` does not compile and true
when it does, because the empty text contains the empty pattern. -/
theorem match_invalid_type_eval (compile : GoString → Option Regexp) :
    recognised invalidTypeHandler.handlerType = false ∧
    invalidTypeHandler.match compile invalidTypeUpdate =
      (match compile [] with
        | none => .error .regexpCompile
        | some _ => .ok true) ∧
    invalidTypeHandler.match compile invalidTypeUpdate ≠ .ok false := by
  have h : invalidTypeHandler.match compile invalidTypeUpdate =
      (match compile [] with
        | none => .error .regexpCompile
        | some _ => .ok true) := by
    cases hc : compile [] with
    | none =>
      simp [handler.match, invalidTypeHandler, mkPatternHandler, selectData, hc,
        HandlerTypeMessageText, HandlerTypeCommand, HandlerTypeCallbackQueryData,
        HandlerTypeCallbackQueryGameShortName, HandlerTypePhotoCaption]
    | some r =>
      simp [handler.match, invalidTypeHandler, mkPatternHandler, selectData, hc,
        HandlerTypeMessageText, HandlerTypeCommand, HandlerTypeCallbackQueryData,
        HandlerTypeCallbackQueryGameShortName, HandlerTypePhotoCaption, stringsContains]
  refine ⟨by decide, h, ?_⟩
  rw [h]
  cases compile [] <;> simp

/-- C3: for a handler with no custom predicate, a recognised category other
than command, and a literal pattern `p` that compiles to `r`, on an update
whose selected text is `t`, `match` returns a boolean that is true exactly
when `r` matches in `t` or `t` contains `p`; so it is true whenever `t`
contains `p`. -/
theorem match_literal_iff {F : Type} (compile : GoString → Option Regexp)
    (h : handler F) (u : Update) (p t : GoString) (r : Regexp)
    (hf : h.matchFunc = none) (hc : h.handlerType ≠ HandlerTypeCommand)
    (hp : h.pattern = .str p) (hr : compile p = some r)
    (ht : selectedText h.handlerType u = some t) :
    (∃ b, h.match compile u = .ok b ∧ (b = true ↔ (r.MatchString t = true ∨ p <:+: t))) ∧
    (p <:+: t → h.match compile u = .ok true) := by
  have hm : h.match compile u = .ok (r.MatchString t || stringsContains t p) := by
    obtain ⟨es, hsel⟩ := selectData_of_selectedText h.handlerType u t ht
    simp [handler.match, hf, hsel, hp, hc, hr]
  refine ⟨⟨_, hm, ?_⟩, ?_⟩
  · rw [Bool.or_eq_true, stringsContains_iff]
  · intro hsub
    rw [hm, (stringsContains_iff t p).2 hsub, Bool.or_true]

/-- Witness for C3: `Test_match_contains`, callback data `xxabcdef` against
the literal `abc`. -/
theorem match_literal_iff_witness :
    selectedText abcHandler.handlerType abcUpdate =
      some (ascii ['x', 'x', 'a', 'b', 'c', 'd', 'e', 'f']) ∧
    ((∃ b, abcHandler.match literalCompile abcUpdate = .ok b ∧
      (b = true ↔
        ((literalRegexp (ascii ['a', 'b', 'c'])).MatchString
            (ascii ['x', 'x', 'a', 'b', 'c', 'd', 'e', 'f']) = true ∨
          ascii ['a', 'b', 'c'] <:+: ascii ['x', 'x', 'a', 'b', 'c', 'd', 'e', 'f']))) ∧
    (ascii ['a', 'b', 'c'] <:+: ascii ['x', 'x', 'a', 'b', 'c', 'd', 'e', 'f'] →
      abcHandler.match literalCompile abcUpdate = .ok true)) :=
  ⟨by decide,
    match_literal_iff literalCompile abcHandler abcUpdate (ascii ['a', 'b', 'c'])
      (ascii ['x', 'x', 'a', 'b', 'c', 'd', 'e', 'f']) (literalRegexp (ascii ['a', 'b', 'c']))
      rfl (by decide) rfl rfl (by decide)⟩

/-- C4: for a handler with no custom predicate whose pattern is a precompiled
expression `r`, any recognised category (command included) and an update whose
selected text for that category is `t`, `match` returns `r.MatchString t`; the
entity lists are not consulted. -/
theorem match_regexp_eq {F : Type} (compile : GoString → Option Regexp)
    (h : handler F) (u : Update) (t : GoString) (r : Regexp)
    (hf : h.matchFunc = none) (hp : h.pattern = .regexp r)
    (ht : selectedText h.handlerType u = some t) :
    h.match compile u = .ok (r.MatchString t) := by
  obtain ⟨es, hsel⟩ := selectData_of_selectedText h.handlerType u t ht
  simp [handler.match, hf, hsel, hp]

/-- Witness for C4: a command-category handler with a precompiled expression,
on a message whose entity list would be out of range for a literal pattern. -/
theorem match_regexp_eq_witness :
    selectedText abcRegexpHandler.handlerType abcMessageUpdate =
      some (ascii ['x', 'a', 'b', 'c']) ∧
    abcRegexpHandler.match rejectCompile abcMessageUpdate =
      .ok ((literalRegexp (ascii ['a', 'b', 'c'])).MatchString (ascii ['x', 'a', 'b', 'c'])) :=
  ⟨by decide,
    match_regexp_eq rejectCompile abcRegexpHandler abcMessageUpdate (ascii ['x', 'a', 'b', 'c'])
      (literalRegexp (ascii ['a', 'b', 'c'])) rfl rfl (by decide)⟩

/-- C5: a handler whose custom predicate `f` is set returns `f u` on every
update `u`, whatever its category, pattern and the payload of the update. -/
theorem match_matchFunc {F : Type} (compile : GoString → Option Regexp)
    (h : handler F) (u : Update) (f : MatchFunc) (hf : h.matchFunc = some f) :
    h.match compile u = .ok (f u) := by
  simp [handler.match, hf]

/-- Witness for C5: `Test_match_func`, a predicate on the update identifier
applied to an update without payload. -/
theorem match_matchFunc_witness :
    (mkMatchFuncHandler [] (fun u => decide (u.ID = 42))).match rejectCompile update42 =
      .ok (decide (update42.ID = 42)) :=
  match_matchFunc rejectCompile (mkMatchFuncHandler [] (fun u => decide (u.ID = 42)))
    update42 (fun u => decide (u.ID = 42)) rfl

/-- C8: with no custom predicate and any pattern, `match` returns false when
the category is message-text, command or photo-caption and the update has no
message, and when the category is callback-data or callback-game-short-name
and the update has no callback query, whatever else the update carries. -/
theorem match_no_container {F : Type} (compile : GoString → Option Regexp)
    (h : handler F) (u : Update) (hf : h.matchFunc = none) :
    ((h.handlerType = HandlerTypeMessageText ∨ h.handlerType = HandlerTypeCommand ∨
        h.handlerType = HandlerTypePhotoCaption) →
      u.Message = none → h.match compile u = .ok false) ∧
    ((h.handlerType = HandlerTypeCallbackQueryData ∨
        h.handlerType = HandlerTypeCallbackQueryGameShortName) →
      u.CallbackQuery = none → h.match compile u = .ok false) := by
  constructor
  · intro hc hu
    have hsel : selectData h.handlerType u = none := by
      rcases hc with hc | hc | hc <;>
        simp [selectData, hc, hu, HandlerTypeMessageText, HandlerTypeCommand,
          HandlerTypeCallbackQueryData, HandlerTypeCallbackQueryGameShortName,
          HandlerTypePhotoCaption]
    simp [handler.match, hf, hsel]
  · intro hc hu
    have hsel : selectData h.handlerType u = none := by
      rcases hc with hc | hc <;>
        simp [selectData, hc, hu, HandlerTypeMessageText, HandlerTypeCommand,
          HandlerTypeCallbackQueryData, HandlerTypeCallbackQueryGameShortName,
          HandlerTypePhotoCaption]
    simp [handler.match, hf, hsel]

/-- Witness for C8: the command handler on an update that carries only a
callback query, and the callback-data handler on one that carries only a
message. -/
theorem match_no_container_witness :
    (abcUpdate.Message = none ∧ fooHandler.match literalCompile abcUpdate = .ok false) ∧
    (abcMessageUpdate.CallbackQuery = none ∧
      abcHandler.match literalCompile abcMessageUpdate = .ok false) :=
  ⟨⟨rfl, (match_no_container literalCompile fooHandler abcUpdate rfl).1 (by decide) rfl⟩,
    ⟨rfl, (match_no_container literalCompile abcHandler abcMessageUpdate rfl).2 (by decide) rfl⟩⟩

/-- C9, counterexample: a callback-data handler whose pattern is a nil
`*regexp.Regexp`, which is neither a string nor a compiled expression, on an
update that carries callback data: `match` does not return false, the call of
`MatchString` through the nil pointer panics. -/
theorem match_nil_regexp_counterexample :
    nilRegexpHandler.matchFunc = none ∧
    nilRegexpHandler.match literalCompile abcUpdate = .error .nilDereference ∧
    nilRegexpHandler.match literalCompile abcUpdate ≠ .ok false :=
  ⟨rfl, by decide, by decide⟩

/-- C9, amended: with no custom predicate and a pattern that is the nil
interface or a value of a type other than string and `*regexp.Regexp`,
`match` returns false for every category and every update.  With a nil
`*regexp.Regexp` as pattern, `match` returns false when the category is
recognised and the update lacks the container it reads, and panics on the nil
pointer when the update carries the container. -/
theorem match_other_pattern {F : Type} (compile : GoString → Option Regexp)
    (h : handler F) (u : Update) (hf : h.matchFunc = none) :
    (h.pattern = .nil ∨ h.pattern = .other → h.match compile u = .ok false) ∧
    (h.pattern = .nilRegexp →
      (recognised h.handlerType = true → selectedText h.handlerType u = none →
        h.match compile u = .ok false) ∧
      ((∃ t, selectedText h.handlerType u = some t) →
        h.match compile u = .error .nilDereference)) := by
  refine ⟨?_, ?_⟩
  · intro hp
    unfold handler.match
    rcases hp with hp | hp <;> rw [hf, hp] <;> cases selectData h.handlerType u <;> rfl
  · intro hp
    refine ⟨?_, ?_⟩
    · intro hrec hnone
      have hsel := selectData_none_of_selectedText h.handlerType u hrec hnone
      simp [handler.match, hf, hsel]
    · rintro ⟨t, ht⟩
      obtain ⟨es, hsel⟩ := selectData_of_selectedText h.handlerType u t ht
      simp [handler.match, hf, hsel, hp]

/-- Witness for C9: a callback-data handler registered with a nil pattern, on
an update that carries callback data; and the handler with a nil
`*regexp.Regexp` on an update without a callback query. -/
theorem match_other_pattern_witness :
    (mkPatternHandler [] HandlerTypeCallbackQueryData .nil).match literalCompile abcUpdate =
      .ok false ∧
    (selectedText nilRegexpHandler.handlerType abcMessageUpdate = none ∧
      nilRegexpHandler.match literalCompile abcMessageUpdate = .ok false) :=
  ⟨(match_other_pattern literalCompile (mkPatternHandler [] HandlerTypeCallbackQueryData .nil)
      abcUpdate rfl).1 (Or.inl rfl),
    by decide,
    ((match_other_pattern literalCompile nilRegexpHandler abcMessageUpdate rfl).2 rfl).1
      (by decide) (by decide)⟩

/-! ## Failures inside `match` -/

/-- C6, counterexample: the message-text handler with the literal pattern `(`,
which the engine rejects, on the message text `x`: `match` does not return
false, it fails with the panic of `MustCompile`. -/
theorem match_compile_failure_counterexample :
    parenHandler.matchFunc = none ∧ parenHandler.handlerType ≠ HandlerTypeCommand ∧
    rejectCompile (ascii ['(']) = none ∧
    parenHandler.match rejectCompile xUpdate = .error .regexpCompile ∧
    parenHandler.match rejectCompile xUpdate ≠ .ok false :=
  ⟨rfl, by decide, rfl, by decide, by decide⟩

/-- C6, amended: for a handler with no custom predicate, a recognised
category other than command and a literal pattern that does not compile,
`match` returns false when the update lacks the container the category reads;
when the update carries the container, the compile failure leaves `match` as
the panic of `MustCompile`. -/
theorem match_compile_failure {F : Type} (compile : GoString → Option Regexp)
    (h : handler F) (u : Update) (p : GoString)
    (hf : h.matchFunc = none) (hc : h.handlerType ≠ HandlerTypeCommand)
    (hp : h.pattern = .str p) (hr : compile p = none) :
    (recognised h.handlerType = true → selectedText h.handlerType u = none →
      h.match compile u = .ok false) ∧
    ((∃ t, selectedText h.handlerType u = some t) →
      h.match compile u = .error .regexpCompile) := by
  refine ⟨?_, ?_⟩
  · intro hrec hnone
    have hsel : selectData h.handlerType u = none := by
      simp only [recognised, decide_eq_true_eq] at hrec
      unfold selectedText at hnone
      unfold selectData
      split_ifs at hnone ⊢ with h1 h2 h3 h4
      · cases hm : u.Message <;> simp_all
      · cases hq : u.CallbackQuery <;> simp_all
      · cases hq : u.CallbackQuery <;> simp_all
      · cases hm : u.Message <;> simp_all
      · rcases hrec with hrec | hrec | hrec | hrec | hrec <;> simp_all
    simp [handler.match, hf, hsel]
  · rintro ⟨t, ht⟩
    obtain ⟨es, hsel⟩ := selectData_of_selectedText h.handlerType u t ht
    simp [handler.match, hf, hsel, hp, hc, hr]

/-- Witness for C6: the pattern `(` on an update with a message, and on one
without. -/
theorem match_compile_failure_witness :
    (selectedText parenHandler.handlerType abcUpdate = none ∧
      parenHandler.match rejectCompile abcUpdate = .ok false) ∧
    (selectedText parenHandler.handlerType xUpdate = some (ascii ['x']) ∧
      parenHandler.match rejectCompile xUpdate = .error .regexpCompile) :=
  ⟨⟨by decide,
    (match_compile_failure rejectCompile parenHandler abcUpdate (ascii ['(']) rfl
      (by decide) rfl rfl).1 (by decide) (by decide)⟩,
    ⟨by decide,
    (match_compile_failure rejectCompile parenHandler xUpdate (ascii ['(']) rfl
      (by decide) rfl rfl).2 ⟨ascii ['x'], by decide⟩⟩⟩

/-- C7, counterexample: the command handler `foo` on a message with empty
text and a bot-command entity of length 0 at offset 0: the slice `data[1:0]`
is out of range and `match` fails instead of returning false. -/
theorem match_command_slice_counterexample :
    fooHandler.match literalCompile { Message := some emptyCommandMessage } =
      .error .sliceOutOfRange ∧
    fooHandler.match literalCompile { Message := some emptyCommandMessage } ≠ .ok false :=
  ⟨by decide, by decide⟩

/-- C7, amended: for a handler with no custom predicate, the command category
and a literal pattern, on an update with a message of any text and entity
list, `match` fails with an out-of-range slice exactly when the scan reaches a
bot-command entity at offset 0 whose length is below 1 or beyond the text (all
entities before it are in range and do not hit); in every other case it
returns a boolean, in particular when no entity is out of range, whatever the
offsets and lengths of entities that are not bot commands at offset 0. -/
theorem match_command_fails_iff {F : Type} (compile : GoString → Option Regexp)
    (h : handler F) (u : Update) (m : Message) (p : GoString)
    (hf : h.matchFunc = none) (hc : h.handlerType = HandlerTypeCommand)
    (hp : h.pattern = .str p) (hu : u.Message = some m) :
    (h.match compile u = .error .sliceOutOfRange ↔
      ∃ pre e post, m.Entities = pre ++ e :: post ∧ outOfRange m.Text e = true ∧
        ∀ x ∈ pre, outOfRange m.Text x = false ∧ commandHit m.Text p x = false) ∧
    ((¬ ∃ pre e post, m.Entities = pre ++ e :: post ∧ outOfRange m.Text e = true ∧
        ∀ x ∈ pre, outOfRange m.Text x = false ∧ commandHit m.Text p x = false) →
      ∃ b, h.match compile u = .ok b) ∧
    ((∀ e ∈ m.Entities, outOfRange m.Text e = false) → ∃ b, h.match compile u = .ok b) := by
  have hm := match_eq_matchCommand compile h u m p hf hc hp hu
  have hok : (¬ ∃ pre e post, m.Entities = pre ++ e :: post ∧ outOfRange m.Text e = true ∧
        ∀ x ∈ pre, outOfRange m.Text x = false ∧ commandHit m.Text p x = false) →
      ∃ b, h.match compile u = .ok b := by
    intro hno
    rw [hm]
    cases hres : matchCommand m.Text p m.Entities with
    | ok b => exact ⟨b, rfl⟩
    | error q =>
      have hq := matchCommand_error_kind m.Text p m.Entities q hres
      rw [hq] at hres
      exact absurd ((matchCommand_error_iff m.Text p m.Entities).1 hres) hno
  refine ⟨?_, hok, ?_⟩
  · rw [hm]
    exact matchCommand_error_iff m.Text p m.Entities
  · intro hall
    apply hok
    rintro ⟨pre, e, post, hes, he, -⟩
    have := hall e (by rw [hes]; simp)
    rw [he] at this
    simp at this

/-- Witness for C7: `/foo` with its entity in range returns a boolean. -/
theorem match_command_fails_iff_witness :
    (∀ e ∈ fooMessage.Entities, outOfRange fooMessage.Text e = false) ∧
    ∃ b, fooHandler.match literalCompile { Message := some fooMessage } = .ok b :=
  ⟨by decide,
    (match_command_fails_iff literalCompile fooHandler { Message := some fooMessage }
      fooMessage (ascii ['f', 'o', 'o']) rfl rfl rfl rfl).2.2 (by decide)⟩

/-! ## The registry -/

/-- C10: `UnregisterHandler` erases the first handler whose id is the
argument and nothing else: when some handler has the id, the list splits as
`pre ++ h :: post` with `h` the first such handler, the result is
`pre ++ post` (the other handlers, later ones with the same id included,
unchanged and in their order) and the length drops by exactly one; when no
handler has the id the list is left as it is. -/
theorem UnregisterHandler_erases_first {F : Type} (hs : List (handler F)) (id : GoString) :
    (∃ pre h post, hs = pre ++ h :: post ∧ (∀ x ∈ pre, x.id ≠ id) ∧ h.id = id ∧
      UnregisterHandler hs id = pre ++ post ∧
      (UnregisterHandler hs id).length + 1 = hs.length) ∨
    ((∀ h ∈ hs, h.id ≠ id) ∧ UnregisterHandler hs id = hs) := by
  cases hfind : findIndexFrom id hs 0 with
  | none =>
    right
    refine ⟨(findIndexFrom_eq_none id hs 0).1 hfind, ?_⟩
    simp only [UnregisterHandler, hfind]
  | some k =>
    left
    obtain ⟨pre, h, post, hsplit, hpre, hh, hk⟩ := findIndexFrom_eq_some id hs 0 k hfind
    have hres : UnregisterHandler hs id = pre ++ post := by
      simp only [UnregisterHandler, hfind]
      subst hsplit
      rw [hk, Nat.zero_add, List.take_left, List.drop_append]
      rfl
    refine ⟨pre, h, post, hsplit, hpre, hh, hres, ?_⟩
    rw [hres, hsplit]
    simp only [List.length_append, List.length_cons]
    omega

/-- C11: removing an id that no handler of the list has (the empty list
included) leaves the list exactly as it was; the operation has no failing
outcome. -/
theorem UnregisterHandler_unknown_id {F : Type} (hs : List (handler F)) (id : GoString)
    (hno : ∀ h ∈ hs, h.id ≠ id) : UnregisterHandler hs id = hs := by
  rw [UnregisterHandler_eq_eraseP, List.eraseP_of_forall_not]
  intro a ha
  simpa using hno a ha

/-- Witness for C11: an unknown id on the two handlers of the test. -/
theorem UnregisterHandler_unknown_id_witness :
    (∀ h ∈ twoHandlers, h.id ≠ idC) ∧ UnregisterHandler twoHandlers idC = twoHandlers :=
  ⟨by decide, UnregisterHandler_unknown_id twoHandlers idC (by decide)⟩

/-- C12: in a list with pairwise distinct ids that has a handler with `id`,
after `UnregisterHandler id` the lookup of `id` finds nothing and the lookup
of every other id finds the same handler as before, so its fields and its
`match` results are the same. -/
theorem findHandler_after_unregister {F : Type} (hs : List (handler F)) (id : GoString)
    (hnd : (hs.map (·.id)).Nodup) (hin : ∃ h ∈ hs, h.id = id) :
    findHandler (UnregisterHandler hs id) id = none ∧
    (∀ id', id' ≠ id → findHandler (UnregisterHandler hs id) id' = findHandler hs id') ∧
    (∀ (compile : GoString → Option Regexp) (id' : GoString) (h' : handler F) (u : Update),
      id' ≠ id → findHandler hs id' = some h' →
      ∃ h'', findHandler (UnregisterHandler hs id) id' = some h'' ∧
        h''.handlerType = h'.handlerType ∧ h''.pattern = h'.pattern ∧
        h''.matchFunc = h'.matchFunc ∧ h''.match compile u = h'.match compile u) := by
  have hother : ∀ id', id' ≠ id →
      findHandler (UnregisterHandler hs id) id' = findHandler hs id' := by
    intro id' hne
    rw [UnregisterHandler_eq_eraseP]
    exact findHandler_eraseP_ne hs id id' hne
  refine ⟨?_, hother, ?_⟩
  · cases hfind : findIndexFrom id hs 0 with
    | none =>
      obtain ⟨h, hh, hid⟩ := hin
      exact absurd hid ((findIndexFrom_eq_none id hs 0).1 hfind h hh)
    | some k =>
      obtain ⟨pre, h, post, hsplit, hpre, hh, -⟩ := findIndexFrom_eq_some id hs 0 k hfind
      subst hsplit
      rw [UnregisterHandler_eq_eraseP,
        List.eraseP_append_right _ (by intro a ha; simpa using hpre a ha),
        List.eraseP_cons_of_pos (by simpa using hh), findHandler_eq_none]
      intro x hx
      rcases List.mem_append.1 hx with hx | hx
      · exact hpre x hx
      · intro hxid
        rw [List.map_append, List.map_cons] at hnd
        have hpost := (List.nodup_cons.1 (List.nodup_append.1 hnd).2.1).1
        apply hpost
        rw [hh, ← hxid]
        exact List.mem_map_of_mem _ hx
  · intro compile id' h' u hne hfound
    exact ⟨h', by rw [hother id' hne, hfound], rfl, rfl, rfl, rfl⟩

/-- Witness for C12: the two handlers of the test, removing the first. -/
theorem findHandler_after_unregister_witness :
    (twoHandlers.map (·.id)).Nodup ∧
    findHandler (UnregisterHandler twoHandlers idA) idA = none ∧
    findHandler (UnregisterHandler twoHandlers idA) idB = findHandler twoHandlers idB :=
  ⟨by decide,
    (findHandler_after_unregister twoHandlers idA (by decide)
      ⟨mkPatternHandler idA HandlerTypeCallbackQueryData (.str []), by simp [twoHandlers],
        rfl⟩).1,
    (findHandler_after_unregister twoHandlers idA (by decide)
      ⟨mkPatternHandler idA HandlerTypeCallbackQueryData (.str []), by simp [twoHandlers],
        rfl⟩).2.1 idB (by decide)⟩

/-- C13: for every handler list, category value and pattern value,
`RegisterHandler` yields the list followed by exactly one new handler, which
stores the category and the pattern given, no custom predicate, and the id
returned to the caller; `RegisterHandlerMatchFunc` yields the list followed
by one new handler that stores the predicate given and the id returned. -/
theorem RegisterHandler_appends {F : Type} (applyMiddlewares : F → List (Middleware F) → F)
    (id : GoString) (hs : List (handler F)) (handlerType : HandlerType) (pattern : Pattern)
    (matchFunc : Option MatchFunc) (f : F) (m : List (Middleware F)) :
    (∃ h, (RegisterHandler applyMiddlewares id hs handlerType pattern f m).1 = hs ++ [h] ∧
      h.id = (RegisterHandler applyMiddlewares id hs handlerType pattern f m).2 ∧
      h.handlerType = handlerType ∧ h.pattern = pattern ∧ h.matchFunc = none) ∧
    (∃ h, (RegisterHandlerMatchFunc applyMiddlewares id hs matchFunc f m).1 = hs ++ [h] ∧
      h.id = (RegisterHandlerMatchFunc applyMiddlewares id hs matchFunc f m).2 ∧
      h.matchFunc = matchFunc) :=
  ⟨⟨_, rfl, rfl, rfl, rfl, rfl⟩, ⟨_, rfl, rfl, rfl⟩⟩

/-- C14: in every registry state reached from the empty registry by a
sequence of `RegisterHandler`, `RegisterHandlerMatchFunc` and
`UnregisterHandler` calls in which each generated id is fresh, the ids of the
registered handlers are pairwise distinct. -/
theorem reachable_ids_nodup {F : Type} (applyMiddlewares : F → List (Middleware F) → F)
    (calls : List (Call F)) (hfresh : freshIds applyMiddlewares [] calls = true) :
    ((run applyMiddlewares [] calls).map (·.id)).Nodup :=
  run_nodup applyMiddlewares calls [] List.nodup_nil hfresh

/-- Witness for C14: the calls of `TestBot_RegisterUnregisterHandler`. -/
theorem reachable_ids_nodup_witness :
    freshIds unitMiddlewares [] testCalls = true ∧
    ((run unitMiddlewares [] testCalls).map (·.id)).Nodup :=
  ⟨by decide, reachable_ids_nodup unitMiddlewares testCalls (by decide)⟩

/-- C15, counterexample: `RegisterHandler` with a nil pattern, and
`RegisterHandlerMatchFunc` with a nil predicate, each put a handler into the
registry that has neither a custom predicate nor a pattern. -/
theorem register_neither_counterexample :
    (∃ h ∈ (RegisterHandler unitMiddlewares idA [] HandlerTypeMessageText .nil () []).1,
      h.matchFunc.isSome = false ∧ h.pattern.present = false) ∧
    (∃ h ∈ (RegisterHandlerMatchFunc unitMiddlewares idA [] none () []).1,
      h.matchFunc.isSome = false ∧ h.pattern.present = false) :=
  ⟨⟨_, List.mem_singleton.2 rfl, rfl, rfl⟩, ⟨_, List.mem_singleton.2 rfl, rfl, rfl⟩⟩

/-- C15, amended: the handler `RegisterHandler` adds has no custom predicate
and a pattern that is present exactly when the pattern passed is; the handler
`RegisterHandlerMatchFunc` adds has no pattern and a custom predicate exactly
when the predicate passed is not nil.  So a registered handler never has
both, and it has one of the two exactly when the caller passed a value. -/
theorem registered_handler_fields {F : Type} (applyMiddlewares : F → List (Middleware F) → F)
    (id : GoString) (hs : List (handler F)) (handlerType : HandlerType) (pattern : Pattern)
    (matchFunc : Option MatchFunc) (f : F) (m : List (Middleware F)) :
    (∃ h, (RegisterHandler applyMiddlewares id hs handlerType pattern f m).1 = hs ++ [h] ∧
      h.matchFunc.isSome = false ∧ h.pattern.present = pattern.present ∧
      ((h.matchFunc.isSome || h.pattern.present) = pattern.present)) ∧
    (∃ h, (RegisterHandlerMatchFunc applyMiddlewares id hs matchFunc f m).1 = hs ++ [h] ∧
      h.matchFunc.isSome = matchFunc.isSome ∧ h.pattern.present = false ∧
      ((h.matchFunc.isSome || h.pattern.present) = matchFunc.isSome)) := by
  refine ⟨⟨_, rfl, rfl, rfl, ?_⟩, ⟨_, rfl, rfl, rfl, ?_⟩⟩
  · simp
  · simp [Pattern.present]

/-- C20: when the id a registration returns is not the id of any handler
already in the list, `UnregisterHandler` with that id right after the
registration, by pattern or by predicate, gives back exactly the list from
before the registration. -/
theorem register_unregister_roundtrip {F : Type}
    (applyMiddlewares : F → List (Middleware F) → F)
    (id : GoString) (hs : List (handler F)) (handlerType : HandlerType) (pattern : Pattern)
    (matchFunc : Option MatchFunc) (f : F) (m : List (Middleware F))
    (hfresh : ∀ h ∈ hs, h.id ≠ id) :
    UnregisterHandler (RegisterHandler applyMiddlewares id hs handlerType pattern f m).1
      (RegisterHandler applyMiddlewares id hs handlerType pattern f m).2 = hs ∧
    UnregisterHandler (RegisterHandlerMatchFunc applyMiddlewares id hs matchFunc f m).1
      (RegisterHandlerMatchFunc applyMiddlewares id hs matchFunc f m).2 = hs :=
  ⟨UnregisterHandler_append_fresh hs _ hfresh, UnregisterHandler_append_fresh hs _ hfresh⟩

/-- Witness for C20: a third registration on the two handlers of the test,
removed again. -/
theorem register_unregister_roundtrip_witness :
    (∀ h ∈ twoHandlers, h.id ≠ idC) ∧
    UnregisterHandler
      (RegisterHandler unitMiddlewares idC twoHandlers HandlerTypeCommand
        (.str (ascii ['f', 'o', 'o'])) () []).1
      (RegisterHandler unitMiddlewares idC twoHandlers HandlerTypeCommand
        (.str (ascii ['f', 'o', 'o'])) () []).2 = twoHandlers ∧
    UnregisterHandler
      (RegisterHandlerMatchFunc unitMiddlewares idC twoHandlers none () []).1
      (RegisterHandlerMatchFunc unitMiddlewares idC twoHandlers none () []).2 = twoHandlers :=
  ⟨by decide,
    register_unregister_roundtrip unitMiddlewares idC twoHandlers HandlerTypeCommand
      (.str (ascii ['f', 'o', 'o'])) none () [] (by decide)⟩

/-! ## What `match` reads -/

/-- C17: for a handler with no custom predicate, two updates that agree on
the presence of the container its category reads and on the fields the
category selects (message-text: the text; command: the text and the entities;
callback-data: the data; callback-game-short-name: the game short name;
photo-caption: the caption) get the same result from `match`, whatever their
other fields are. -/
theorem match_depends_on_selected {F : Type} (compile : GoString → Option Regexp)
    (h : handler F) (u₁ u₂ : Update) (hf : h.matchFunc = none)
    (hagree : selectedFields h.handlerType u₁ = selectedFields h.handlerType u₂) :
    h.match compile u₁ = h.match compile u₂ := by
  unfold selectedFields at hagree
  unfold handler.match
  rw [hf]
  simp only
  split_ifs at hagree with h0 h1 h2 h3 h4
  · cases hm1 : u₁.Message <;> cases hm2 : u₂.Message <;>
      simp [hm1, hm2] at hagree <;>
      cases hpat : h.pattern <;>
      simp [selectData, h0, hm1, hm2, hagree, HandlerTypeMessageText, HandlerTypeCommand]
  · cases hm1 : u₁.Message <;> cases hm2 : u₂.Message <;>
      simp [hm1, hm2] at hagree <;>
      cases hpat : h.pattern <;>
      simp [selectData, h1, hm1, hm2, hagree]
  · cases hm1 : u₁.CallbackQuery <;> cases hm2 : u₂.CallbackQuery <;>
      simp [hm1, hm2] at hagree <;>
      cases hpat : h.pattern <;>
      simp [selectData, h2, hm1, hm2, hagree, HandlerTypeMessageText, HandlerTypeCommand,
        HandlerTypeCallbackQueryData]
  · cases hm1 : u₁.CallbackQuery <;> cases hm2 : u₂.CallbackQuery <;>
      simp [hm1, hm2] at hagree <;>
      cases hpat : h.pattern <;>
      simp [selectData, h3, hm1, hm2, hagree, HandlerTypeMessageText, HandlerTypeCommand,
        HandlerTypeCallbackQueryData, HandlerTypeCallbackQueryGameShortName]
  · cases hm1 : u₁.Message <;> cases hm2 : u₂.Message <;>
      simp [hm1, hm2] at hagree <;>
      cases hpat : h.pattern <;>
      simp [selectData, h4, hm1, hm2, hagree, HandlerTypeMessageText, HandlerTypeCommand,
        HandlerTypeCallbackQueryData, HandlerTypeCallbackQueryGameShortName,
        HandlerTypePhotoCaption]
  · have hsel : ∀ u, selectData h.handlerType u = some ([], []) := by
      intro u
      simp [selectData, h0, h1, h2, h3, h4]
    rw [hsel u₁, hsel u₂]

/-- Witness for C17: the photo-caption handler on two updates with the same
caption and different identifiers, texts, entities and callback payload. -/
theorem match_depends_on_selected_witness :
    selectedFields captionHandler.handlerType captionUpdate1 =
      selectedFields captionHandler.handlerType captionUpdate2 ∧
    captionUpdate1 ≠ captionUpdate2 ∧
    captionHandler.match literalCompile captionUpdate1 =
      captionHandler.match literalCompile captionUpdate2 :=
  ⟨by decide, by decide,
    match_depends_on_selected literalCompile captionHandler captionUpdate1 captionUpdate2 rfl
      (by decide)⟩

/-- C18: for a handler with no custom predicate, the command category and a
literal pattern, on an update whose message has every bot-command entity at
offset 0 with `1 ≤ Length ≤ len(Text)`: the run of `match` is the recorded
scan, it does not end in a panic, every slice it evaluates is in range, and
it evaluates the slice only for entities of the message whose offset is 0. -/
theorem match_command_slices_in_range {F : Type} (compile : GoString → Option Regexp)
    (h : handler F) (u : Update) (m : Message) (p : GoString)
    (hf : h.matchFunc = none) (hc : h.handlerType = HandlerTypeCommand)
    (hp : h.pattern = .str p) (hu : u.Message = some m)
    (hlen : ∀ e ∈ m.Entities, e.EntityType = MessageEntityTypeBotCommand → e.Offset = 0 →
      1 ≤ e.Length ∧ e.Length ≤ (m.Text.length : Int)) :
    h.match compile u = (matchCommandLog m.Text p m.Entities).1 ∧
    (∀ q, h.match compile u ≠ .error q) ∧
    (∀ e ∈ (matchCommandLog m.Text p m.Entities).2, e ∈ m.Entities ∧ e.Offset = 0 ∧
      goSlice m.Text (e.Offset + 1) (e.Offset + e.Length) ≠ .error .sliceOutOfRange ∧
      ∃ s, goSlice m.Text (e.Offset + 1) (e.Offset + e.Length) = .ok s) := by
  have hm := match_eq_matchCommand compile h u m p hf hc hp hu
  refine ⟨by rw [hm, matchCommandLog_fst], ?_, ?_⟩
  · intro q
    rw [hm, matchCommand_inRange m.Text p m.Entities hlen]
    simp
  · intro e he
    obtain ⟨hmem, ht, ho⟩ := matchCommandLog_mem m.Text p m.Entities e he
    obtain ⟨h1, h2⟩ := hlen e hmem ht ho
    have hs := goSlice_one m.Text e.Length h1 h2
    rw [← ho] at hs
    refine ⟨hmem, ho, ?_, _, hs⟩
    rw [hs]
    simp

/-- Witness for C18: `/foo arg1 arg2` against the command `foo`; the one
slice evaluated is that of the entity at offset 0. -/
theorem match_command_slices_in_range_witness :
    (∀ e ∈ fooArgsMessage.Entities, e.EntityType = MessageEntityTypeBotCommand → e.Offset = 0 →
      1 ≤ e.Length ∧ e.Length ≤ (fooArgsMessage.Text.length : Int)) ∧
    (matchCommandLog fooArgsMessage.Text (ascii ['f', 'o', 'o']) fooArgsMessage.Entities).2 =
      [⟨MessageEntityTypeBotCommand, 0, 4⟩] ∧
    ∀ q, fooHandler.match literalCompile { Message := some fooArgsMessage } ≠ .error q :=
  ⟨by decide, by decide,
    (match_command_slices_in_range literalCompile fooHandler { Message := some fooArgsMessage }
      fooArgsMessage (ascii ['f', 'o', 'o']) rfl rfl rfl rfl (by decide)).2.1⟩

/-- C19: a handler with no custom predicate, a recognised category other than
command and the empty literal pattern returns true on every update that
carries the container its category reads, whatever the selected text is: the
empty pattern compiles (to `r`) and every text contains the empty string. -/
theorem match_empty_pattern {F : Type} (compile : GoString → Option Regexp)
    (h : handler F) (u : Update) (t : GoString) (r : Regexp)
    (hf : h.matchFunc = none) (hc : h.handlerType ≠ HandlerTypeCommand)
    (hp : h.pattern = .str []) (hr : compile [] = some r)
    (ht : selectedText h.handlerType u = some t) :
    h.match compile u = .ok true := by
  obtain ⟨es, hsel⟩ := selectData_of_selectedText h.handlerType u t ht
  simp [handler.match, hf, hsel, hp, hc, hr, stringsContains_empty]

/-- Witness for C19: the empty pattern on a message with empty text. -/
theorem match_empty_pattern_witness :
    selectedText emptyPatternHandler.handlerType emptyTextUpdate = some [] ∧
    emptyPatternHandler.match literalCompile emptyTextUpdate = .ok true :=
  ⟨by decide,
    match_empty_pattern literalCompile emptyPatternHandler emptyTextUpdate []
      (literalRegexp []) rfl (by decide) rfl rfl (by decide)⟩

end Bot
